import Mathlib

/-!
Shallow embedding of the managed-position lifecycle engine implemented in
`services/position_manager.go` (package `services`) of the prophet-trader
repository, together with theorems settling the specification's claims.

Modelling conventions:
* Go `float64` values are modelled as rationals (`ℚ`); every arithmetic
  expression is transcribed literally from the source.
* Broker and store effects are made explicit: each embedded method returns,
  next to its result, the ordered list of side-effecting calls it performed
  (`Act`).  Read-only broker queries (`GetOrder`, `GetLatestQuote`) are
  modelled as pure functions supplied by an environment `Env`; the results
  of `PlaceOrder` are likewise supplied by `Env`, and every `PlaceOrder`,
  `CancelOrder` or database-save call is recorded in the trace whether or
  not the call succeeded.  Database-save errors are only logged by the Go
  code, so the store needs no result function.
* `time.Now()` values and the generated position id are passed in as
  parameters (`now : ℚ`, in seconds; `posId : String`).
* Go nil-able pointers become `Option`; a nil-pointer dereference is
  modelled by an `Option.none` result of the embedded function.
* Timestamp metadata other than `CreatedAt`, `UpdatedAt` and `ClosedAt`
  (e.g. `Order.SubmittedAt`) is omitted: nothing reads it.
-/

/-- Embeds `interfaces.Order`. The Go field `Type` is rendered `otype`. -/
structure Order where
  id : String := ""
  symbol : String
  qty : ℚ
  side : String
  otype : String
  timeInForce : String
  limitPrice : Option ℚ := none
  stopPrice : Option ℚ := none
  status : String
  filledQty : ℚ := 0
  filledAvgPrice : Option ℚ := none
deriving DecidableEq, Repr

/-- Embeds `interfaces.OrderResult`. -/
structure OrderResult where
  orderID : String
  status : String := ""
  message : String := ""
deriving DecidableEq, Repr

/-- Embeds `interfaces.Quote` (only the fields the engine reads). -/
structure Quote where
  askPrice : ℚ
  bidPrice : ℚ
deriving DecidableEq, Repr

/-- Embeds `services.PartialExitConfig`. -/
structure PartExitConfig where
  enabled : Bool
  percent : ℚ := 0
  targetPercent : ℚ := 0
  targetPrice : ℚ := 0
deriving DecidableEq, Repr

/-- Embeds `services.ManagedPosition`.  Status strings are kept verbatim:
"PENDING", "ACTIVE", "PARTIAL", "CLOSED", "STOPPED_OUT", "FAILED". -/
structure ManagedPosition where
  id : String
  symbol : String
  side : String
  strategy : String := ""
  quantity : ℚ
  entryPrice : ℚ
  entryOrderID : String := ""
  entryOrderType : String := ""
  allocationDollars : ℚ := 0
  stopLossPrice : ℚ
  stopLossPercent : ℚ := 0
  stopLossOrderID : String := ""
  trailingStop : Bool := false
  trailingPercent : ℚ := 0
  takeProfitPrice : ℚ
  takeProfitPercent : ℚ := 0
  takeProfitOrderID : String := ""
  partExit : Option PartExitConfig := none
  partExitOrders : List String := []
  status : String
  currentPrice : ℚ := 0
  unrealizedPL : ℚ := 0
  unrealizedPLPC : ℚ := 0
  remainingQty : ℚ
  createdAt : ℚ := 0
  updatedAt : ℚ := 0
  closedAt : Option ℚ := none
  notes : String := ""
  tags : List String := []
deriving DecidableEq, Repr

/-- Embeds `services.PlaceManagedPositionRequest` (the `PartialExit` field
is rendered `partExit`). -/
structure PlaceManagedPositionRequest where
  symbol : String
  side : String
  strategy : String := ""
  allocationDollars : ℚ
  entryStrategy : String := ""
  entryPrice : Option ℚ := none
  stopLossPrice : Option ℚ := none
  stopLossPercent : Option ℚ := none
  trailingStop : Bool := false
  trailingPercent : ℚ := 0
  takeProfitPrice : Option ℚ := none
  takeProfitPercent : Option ℚ := none
  partExit : Option PartExitConfig := none
  notes : String := ""
  tags : List String := []
deriving DecidableEq, Repr

/-- One side-effecting call of the engine, in program order: an order
submission to the broker, an order cancellation, or a database save. -/
inductive Act where
  | placeOrder : Order → Act
  | cancelOrder : String → Act
  | saveToDB : ManagedPosition → Act
deriving DecidableEq, Repr

/-- Whether an action is an order submission. -/
def Act.isPlace : Act → Bool
  | Act.placeOrder _ => true
  | _ => false

/-- Whether an action is an order cancellation. -/
def Act.isCancel : Act → Bool
  | Act.cancelOrder _ => true
  | _ => false

/-- Whether an action is a database save. -/
def Act.isSave : Act → Bool
  | Act.saveToDB _ => true
  | _ => false

/-- The read side of the broker and data services
(`interfaces.TradingService` and `interfaces.DataService`): responses the
environment gives to the engine's queries and submissions. -/
structure Env where
  placeOrder : Order → Except String OrderResult
  cancelOrder : String → Except String Unit
  getOrder : String → Except String Order
  getLatestQuote : String → Except String Quote

/-- Whether an `Except` result is the success case. -/
def exOk {α : Type} : Except String α → Bool
  | Except.ok _ => true
  | Except.error _ => false

/-- Embeds `calculateQuantity`: `math.Floor(allocation / price)`. -/
def calculateQuantity (allocation price : ℚ) : ℚ :=
  (⌊allocation / price⌋ : ℚ)

/-- Embeds `calculateStopLoss`.  The Go code dereferences the
`stopPercent` pointer when `stopPrice` is nil; the nil-nil case (a
nil-pointer dereference, unreachable after `validateRequest`) is `none`. -/
def calculateStopLoss (entryPrice : ℚ) (stopPrice stopPercent : Option ℚ)
    (side : String) : Option ℚ :=
  match stopPrice with
  | some p => some p
  | none =>
    match stopPercent with
    | some pct =>
      if side = "buy" then some (entryPrice * (1 - pct / 100))
      else some (entryPrice * (1 + pct / 100))
    | none => none

/-- Embeds `calculateTakeProfit`; nil-nil case as in `calculateStopLoss`. -/
def calculateTakeProfit (entryPrice : ℚ) (profitPrice profitPercent : Option ℚ)
    (side : String) : Option ℚ :=
  match profitPrice with
  | some p => some p
  | none =>
    match profitPercent with
    | some pct =>
      if side = "buy" then some (entryPrice * (1 + pct / 100))
      else some (entryPrice * (1 - pct / 100))
    | none => none

/-- Embeds `calculatePartialExitPrice`. -/
def calcPartExitPrice (entryPrice targetPercent : ℚ) (side : String) : ℚ :=
  if side = "buy" then entryPrice * (1 + targetPercent / 100)
  else entryPrice * (1 - targetPercent / 100)

/-- Embeds `validateRequest`. -/
def validateRequest (req : PlaceManagedPositionRequest) : Except String Unit :=
  if req.side ≠ "buy" ∧ req.side ≠ "sell" then
    Except.error ("side must be buy or sell")
  else if req.entryStrategy = "limit" ∧ req.entryPrice = none then
    Except.error ("entry price required for limit orders")
  else if req.stopLossPrice = none ∧ req.stopLossPercent = none then
    Except.error ("either stop loss price or stop loss percent required")
  else if req.takeProfitPrice = none ∧ req.takeProfitPercent = none then
    Except.error ("either take profit price or take profit percent required")
  else
    Except.ok ()

/-- Embeds `getCurrentPrice`: latest quote, preferring a positive ask. -/
def getCurrentPrice (env : Env) (symbol : String) : Except String ℚ :=
  match env.getLatestQuote symbol with
  | Except.error e => Except.error e
  | Except.ok quote =>
    if quote.askPrice > 0 then Except.ok quote.askPrice
    else Except.ok quote.bidPrice

/-- Embeds `placeEntryOrder`: submit the entry order and, on success,
record the broker order id on the position. -/
def placeEntryOrder (env : Env) (position : ManagedPosition) :
    Except String ManagedPosition × List Act :=
  let otype := if position.entryOrderType = "limit" then ("limit") else ("market")
  let order : Order :=
    { symbol := position.symbol, qty := position.quantity,
      side := position.side, otype := otype, timeInForce := "gtc",
      status := "pending",
      limitPrice := if otype = "limit" then some position.entryPrice else none }
  match env.placeOrder order with
  | Except.error e => (Except.error e, [Act.placeOrder order])
  | Except.ok result =>
    let p1 := { position with entryOrderID := result.orderID, status := "PENDING" }
    (Except.ok p1, [Act.placeOrder order])

/-- Embeds `PlaceManagedPosition`: validate, price, size, build the
record, submit the entry order, store, then attempt a database save
(whose failure the Go code only logs). -/
def PlaceManagedPosition (env : Env) (posId : String) (now : ℚ)
    (req : PlaceManagedPositionRequest) :
    Except String ManagedPosition × List Act :=
  match validateRequest req with
  | Except.error e => (Except.error ("invalid request: " ++ e), [])
  | Except.ok _ =>
  match getCurrentPrice env req.symbol with
  | Except.error e => (Except.error ("failed to get current price: " ++ e), [])
  | Except.ok currentPrice =>
  let entryPrice := match req.entryPrice with
    | some p => p
    | none => currentPrice
  let quantity := calculateQuantity req.allocationDollars entryPrice
  match calculateStopLoss entryPrice req.stopLossPrice req.stopLossPercent req.side with
  | none => (Except.error ("nil pointer dereference"), [])
  | some stopLossPrice =>
  match calculateTakeProfit entryPrice req.takeProfitPrice req.takeProfitPercent req.side with
  | none => (Except.error ("nil pointer dereference"), [])
  | some takeProfitPrice =>
  let stopLossPercent := abs ((stopLossPrice - entryPrice) / entryPrice * 100)
  let takeProfitPercent := abs ((takeProfitPrice - entryPrice) / entryPrice * 100)
  let partExit : Option PartExitConfig := match req.partExit with
    | some cfg =>
      if cfg.enabled then
        some { cfg with
                 targetPrice := calcPartExitPrice entryPrice cfg.targetPercent req.side }
      else some cfg
    | none => none
  let position : ManagedPosition :=
    { id := posId, symbol := req.symbol, side := req.side,
      strategy := req.strategy, quantity := quantity,
      entryPrice := entryPrice, entryOrderType := req.entryStrategy,
      allocationDollars := req.allocationDollars,
      stopLossPrice := stopLossPrice, stopLossPercent := stopLossPercent,
      trailingStop := req.trailingStop, trailingPercent := req.trailingPercent,
      takeProfitPrice := takeProfitPrice, takeProfitPercent := takeProfitPercent,
      partExit := partExit, status := "PENDING",
      currentPrice := currentPrice, remainingQty := quantity,
      createdAt := now, updatedAt := now,
      notes := req.notes, tags := req.tags }
  match placeEntryOrder env position with
  | (Except.error e, tr) =>
    (Except.error ("failed to place entry order: " ++ e), tr)
  | (Except.ok position1, tr) =>
    (Except.ok position1, tr ++ [Act.saveToDB position1])

/-- Embeds `placeStopLossOrder`: a stop order for the remaining quantity
at the current stop price. -/
def placeStopLossOrder (env : Env) (position : ManagedPosition) :
    Except String ManagedPosition × List Act :=
  let exitSide := if position.side = "sell" then ("buy") else ("sell")
  let order : Order :=
    { symbol := position.symbol, qty := position.remainingQty,
      side := exitSide, otype := "stop", timeInForce := "gtc",
      stopPrice := some position.stopLossPrice, status := "pending" }
  match env.placeOrder order with
  | Except.error e => (Except.error e, [Act.placeOrder order])
  | Except.ok result =>
    (Except.ok { position with stopLossOrderID := result.orderID },
     [Act.placeOrder order])

/-- Embeds `placeTakeProfitOrder`: a limit order for the remaining
quantity at the take-profit price. -/
def placeTakeProfitOrder (env : Env) (position : ManagedPosition) :
    Except String ManagedPosition × List Act :=
  let exitSide := if position.side = "sell" then ("buy") else ("sell")
  let order : Order :=
    { symbol := position.symbol, qty := position.remainingQty,
      side := exitSide, otype := "limit", timeInForce := "gtc",
      limitPrice := some position.takeProfitPrice, status := "pending" }
  match env.placeOrder order with
  | Except.error e => (Except.error e, [Act.placeOrder order])
  | Except.ok result =>
    (Except.ok { position with takeProfitOrderID := result.orderID },
     [Act.placeOrder order])

/-- Embeds `placePartialExitOrder`.  The Go code reads
`position.PartialExit` unconditionally; its callers only invoke it when
the substructure is present and enabled, so the `none` branch (a
nil-pointer dereference in Go) is never reached from this file's callers
and is embedded as a no-op. -/
def placePartExitOrder (env : Env) (position : ManagedPosition) :
    Except String ManagedPosition × List Act :=
  match position.partExit with
  | none => (Except.ok position, [])
  | some cfg =>
    let exitSide := if position.side = "sell" then ("buy") else ("sell")
    let partQty := position.quantity * (cfg.percent / 100)
    let order : Order :=
      { symbol := position.symbol, qty := partQty, side := exitSide,
        otype := "limit", timeInForce := "gtc",
        limitPrice := some cfg.targetPrice, status := "pending" }
    match env.placeOrder order with
    | Except.error e => (Except.error e, [Act.placeOrder order])
    | Except.ok result =>
      (Except.ok { position with
                     partExitOrders := position.partExitOrders ++ [result.orderID] },
       [Act.placeOrder order])

/-- A call to `placeStopLossOrder` whose error result is only logged —
the call pattern of `placeRiskOrders` and `updateTrailingStop`. -/
def runPlaceStopLoss (env : Env) (position : ManagedPosition) :
    ManagedPosition × List Act :=
  match placeStopLossOrder env position with
  | (Except.ok p, a) => (p, a)
  | (Except.error _, a) => (position, a)

/-- A call to `placeTakeProfitOrder` whose error result is only logged. -/
def runPlaceTakeProfit (env : Env) (position : ManagedPosition) :
    ManagedPosition × List Act :=
  match placeTakeProfitOrder env position with
  | (Except.ok p, a) => (p, a)
  | (Except.error _, a) => (position, a)

/-- A call to `placePartExitOrder` whose error result is only logged. -/
def runPlacePartExit (env : Env) (position : ManagedPosition) :
    ManagedPosition × List Act :=
  match placePartExitOrder env position with
  | (Except.ok p, a) => (p, a)
  | (Except.error _, a) => (position, a)

/-- Embeds `placeRiskOrders`: place stop, take-profit, and (if enabled)
partial-exit orders; individual submission errors are only logged. -/
def placeRiskOrders (env : Env) (position : ManagedPosition) :
    ManagedPosition × List Act :=
  let r1 := runPlaceStopLoss env position
  let r2 := runPlaceTakeProfit env r1.1
  let r3 := match r2.1.partExit with
    | some cfg => if cfg.enabled then runPlacePartExit env r2.1 else (r2.1, [])
    | none => (r2.1, [])
  (r3.1, r1.2 ++ r2.2 ++ r3.2)

/-- Embeds `checkEntryOrder`.  On a "filled" report the Go code
dereferences `order.FilledAvgPrice` without a nil check; that dereference
is the `none` result. -/
def checkEntryOrder (env : Env) (now : ℚ) (position : ManagedPosition) :
    Option (ManagedPosition × List Act) :=
  match env.getOrder position.entryOrderID with
  | Except.error _ => some (position, [])
  | Except.ok order =>
    if order.status = "filled" then
      match order.filledAvgPrice with
      | none => none
      | some fillPrice =>
        let p1 := { position with status := "ACTIVE",
                                  entryPrice := fillPrice, updatedAt := now }
        let r := placeRiskOrders env p1
        some (r.1, r.2 ++ [Act.saveToDB r.1])
    else
      some (position, [])

/-- Whether the broker reports the given order as filled (the
`err == nil && order.Status == "filled"` pattern of the Go code). -/
def orderFilled (env : Env) (orderID : String) : Bool :=
  match env.getOrder orderID with
  | Except.ok o => o.status = "filled"
  | Except.error _ => false

/-- One iteration of the partial-exit loop of `manageRiskOrders`. -/
def checkPartExitOrder (env : Env) (acc : ManagedPosition × List Act)
    (orderID : String) : ManagedPosition × List Act :=
  match env.getOrder orderID with
  | Except.ok order =>
    if order.status = "filled" then
      let p := { acc.1 with status := "PARTIAL",
                            remainingQty := acc.1.remainingQty - order.filledQty }
      (p, acc.2 ++ [Act.saveToDB p])
    else acc
  | Except.error _ => acc

/-- Embeds `manageRiskOrders`: poll the stop order, then the take-profit
order, then each partial-exit order. -/
def manageRiskOrders (env : Env) (now : ℚ) (position : ManagedPosition) :
    ManagedPosition × List Act :=
  if position.stopLossOrderID ≠ "" ∧ orderFilled env position.stopLossOrderID then
    let p := { position with status := "STOPPED_OUT", closedAt := some now }
    (p, [Act.saveToDB p])
  else if position.takeProfitOrderID ≠ "" ∧ orderFilled env position.takeProfitOrderID then
    let p := { position with status := "CLOSED", closedAt := some now }
    (p, [Act.saveToDB p])
  else
    position.partExitOrders.foldl (checkPartExitOrder env) (position, [])

/-- Embeds `updatePositionPrice`: refresh the mark and the P&L fields. -/
def updatePositionPrice (env : Env) (now : ℚ) (position : ManagedPosition) :
    Except String ManagedPosition :=
  match getCurrentPrice env position.symbol with
  | Except.error e => Except.error e
  | Except.ok currentPrice =>
    if position.side = "buy" then
      Except.ok { position with
        currentPrice := currentPrice,
        unrealizedPL := (currentPrice - position.entryPrice) * position.remainingQty,
        unrealizedPLPC := (currentPrice - position.entryPrice) / position.entryPrice * 100,
        updatedAt := now }
    else
      Except.ok { position with
        currentPrice := currentPrice,
        unrealizedPL := (position.entryPrice - currentPrice) * position.remainingQty,
        unrealizedPLPC := (position.entryPrice - currentPrice) / position.entryPrice * 100,
        updatedAt := now }

/-- Embeds `updateTrailingStop`: compute the candidate stop from the
current mark and adopt it only when it beats the current stop strictly
(cancel the old stop order, update the price, place a new stop order). -/
def updateTrailingStop (env : Env) (position : ManagedPosition) :
    ManagedPosition × List Act :=
  if position.side = "buy" then
    let newStopPrice := position.currentPrice * (1 - position.trailingPercent / 100)
    if newStopPrice > position.stopLossPrice then
      let cancelActs :=
        if position.stopLossOrderID ≠ "" then
          [Act.cancelOrder position.stopLossOrderID]
        else []
      let p1 := { position with stopLossPrice := newStopPrice }
      let r := runPlaceStopLoss env p1
      (r.1, cancelActs ++ r.2)
    else (position, [])
  else
    let newStopPrice := position.currentPrice * (1 + position.trailingPercent / 100)
    if newStopPrice < position.stopLossPrice then
      let cancelActs :=
        if position.stopLossOrderID ≠ "" then
          [Act.cancelOrder position.stopLossOrderID]
        else []
      let p1 := { position with stopLossPrice := newStopPrice }
      let r := runPlaceStopLoss env p1
      (r.1, cancelActs ++ r.2)
    else (position, [])

/-- Embeds the body of the `checkPositions` loop for one position: the
work one supervisor pass performs on one record. -/
def checkPositionPass (env : Env) (now : ℚ) (position : ManagedPosition) :
    Option (ManagedPosition × List Act) :=
  if position.status = "CLOSED" ∨ position.status = "STOPPED_OUT" then
    some (position, [])
  else if position.status = "PENDING" then
    checkEntryOrder env now position
  else
    match updatePositionPrice env now position with
    | Except.error _ => some (position, [])
    | Except.ok p1 =>
      let r2 := if p1.status = "ACTIVE" then manageRiskOrders env now p1 else (p1, [])
      let r3 := if r2.1.trailingStop then updateTrailingStop env r2.1 else (r2.1, [])
      some (r3.1, r2.2 ++ r3.2)

/-- The 24-hour staleness window of `ListManagedPositions`
(`24 * time.Hour`), in seconds. -/
def staleAfter : ℚ := 24 * 3600

/-- Embeds `ListManagedPositions`: skip PENDING records older than the
staleness window, then keep records matching the literal status filter
(the empty filter matches everything). -/
def ListManagedPositions (positions : List ManagedPosition) (status : String)
    (now : ℚ) : List ManagedPosition :=
  positions.foldl (fun acc pos =>
    if pos.status = "PENDING" ∧ now - pos.createdAt > staleAfter then acc
    else if status = "" ∨ pos.status = status then acc ++ [pos]
    else acc) []

/-- Embeds `CloseManagedPosition` for a position present in the working
set: best-effort cancels (results ignored by the Go code), a market exit
when the entry had filled and quantity remains (submission errors only
logged), then an unconditional transition to "CLOSED" and a save. -/
def CloseManagedPosition (now : ℚ) (position : ManagedPosition) :
    ManagedPosition × List Act :=
  let cancelEntry :=
    if position.entryOrderID ≠ "" then [Act.cancelOrder position.entryOrderID]
    else []
  let cancelStop :=
    if position.stopLossOrderID ≠ "" then [Act.cancelOrder position.stopLossOrderID]
    else []
  let cancelTake :=
    if position.takeProfitOrderID ≠ "" then [Act.cancelOrder position.takeProfitOrderID]
    else []
  let cancelPart := position.partExitOrders.map Act.cancelOrder
  let exitActs :=
    if (position.status = "ACTIVE" ∨ position.status = "PARTIAL")
        ∧ position.remainingQty > 0 then
      let exitSide := if position.side = "sell" then ("buy") else ("sell")
      let order : Order :=
        { symbol := position.symbol, qty := position.remainingQty,
          side := exitSide, otype := "market", timeInForce := "day",
          status := "pending" }
      [Act.placeOrder order]
    else []
  let p := { position with status := "CLOSED", closedAt := some now }
  (p, cancelEntry ++ cancelStop ++ cancelTake ++ cancelPart ++ exitActs
        ++ [Act.saveToDB p])

/-- Iterated trailing-stop update over a sequence of marks: each step
installs the next mark as `currentPrice` and runs `updateTrailingStop`,
as successive supervisor passes do. -/
def trailRun (env : Env) (position : ManagedPosition) (marks : List ℚ) :
    ManagedPosition :=
  marks.foldl (fun p m => (updateTrailingStop env { p with currentPrice := m }).1)
    position

/-! Concrete fixtures used by the counterexamples and witnesses below. -/

/-- A stub quote: ask 100, bid 99. -/
def qt100 : Quote := { askPrice := 100, bidPrice := 99 }

/-- A stub successful order submission result. -/
def resOk : OrderResult := { orderID := "ord-1" }

/-- A stub broker order in status "accepted". -/
def ordAccepted : Order :=
  { symbol := "SPY", qty := 10, side := "buy", otype := "market",
    timeInForce := "gtc", status := "accepted" }

/-- A stub broker order reported filled at average price 90. -/
def ordFilled90 : Order :=
  { ordAccepted with status := "filled", filledQty := 10,
                     filledAvgPrice := some 90 }

/-- A broker that accepts submissions, quotes ask 100, and knows no orders. -/
def envOk : Env :=
  { placeOrder := fun _ => Except.ok resOk,
    cancelOrder := fun _ => Except.ok (),
    getOrder := fun _ => Except.error ("order not found"),
    getLatestQuote := fun _ => Except.ok qt100 }

/-- A broker that permanently rejects every submission. -/
def envErr : Env :=
  { envOk with placeOrder := fun _ => Except.error ("rejected by broker") }

/-- A broker reporting every queried order filled at average price 90. -/
def envFill90 : Env :=
  { envOk with getOrder := fun _ => Except.ok ordFilled90 }

/-- A broker reporting every queried order canceled. -/
def envCanceled : Env :=
  { envOk with getOrder := fun _ => Except.ok { ordAccepted with status := "canceled" } }

/-- A broker reporting every queried order rejected. -/
def envRejected : Env :=
  { envOk with getOrder := fun _ => Except.ok { ordAccepted with status := "rejected" } }

/-- A broker reporting every queried order filled with a nil fill-average price. -/
def envNilAvg : Env :=
  { envOk with getOrder := fun _ =>
      Except.ok { ordAccepted with status := "filled", filledQty := 10 } }

/-- A broker reporting only the partial-exit order "pe1" filled (for 5 shares). -/
def envPart : Env :=
  { envOk with getOrder := fun oid =>
      if oid = "pe1" then
        Except.ok { ordAccepted with status := "filled", filledQty := 5 }
      else Except.ok ordAccepted }

/-- A valid market-entry request: long SPY, 1000 dollars, 5% stop, 10% take. -/
def reqStd : PlaceManagedPositionRequest :=
  { symbol := "SPY", side := "buy", allocationDollars := 1000,
    entryStrategy := "market", stopLossPercent := some 5,
    takeProfitPercent := some 10 }

/-- Same request with an allocation below the share price. -/
def reqSmall : PlaceManagedPositionRequest :=
  { reqStd with allocationDollars := 50 }

/-- A limit request whose explicit entry price is zero. -/
def reqZeroEntry : PlaceManagedPositionRequest :=
  { reqStd with entryStrategy := "limit", entryPrice := some 0 }

/-- A base active long position: 10 shares at 100, stop 95, take 110. -/
def posBase : ManagedPosition :=
  { id := "pos_1", symbol := "SPY", side := "buy", quantity := 10,
    entryPrice := 100, stopLossPrice := 95, takeProfitPrice := 110,
    status := "ACTIVE", remainingQty := 10 }

/-- A stopped-out position. -/
def posStopped : ManagedPosition := { posBase with status := "STOPPED_OUT" }

/-- A failed position. -/
def posFailed : ManagedPosition := { posBase with status := "FAILED" }

/-- An active position with live stop and take-profit order ids. -/
def posProt : ManagedPosition :=
  { posBase with stopLossOrderID := "s1", takeProfitOrderID := "t1" }

/-- As `posProt`, plus one partial-exit order "pe1". -/
def posPart : ManagedPosition := { posProt with partExitOrders := ["pe1"] }

/-- A pending position whose entry order is "e1". -/
def posPend : ManagedPosition :=
  { posBase with status := "PENDING", entryOrderID := "e1" }

/-- As `posPend`, with the percentage bookkeeping of a 5%/10% request
(planned entry 100, stop 95, take 110). -/
def posPlan : ManagedPosition :=
  { posPend with stopLossPercent := 5, takeProfitPercent := 10 }

/-- An active trailing long position (5% trail, live stop order "s1"). -/
def posTrail : ManagedPosition :=
  { posBase with trailingStop := true, trailingPercent := 5,
                 stopLossOrderID := "s1" }

/-- A pending position created at time 0 (stale once now exceeds the window). -/
def posStale : ManagedPosition :=
  { posBase with status := "PENDING", createdAt := 0 }

/-- The broker order the stub `envPart` reports for "pe1". -/
def ordPE1 : Order := { ordAccepted with status := "filled", filledQty := 5 }

/-- `posPart` as `updatePositionPrice` leaves it after a pass at time 0
against the stub quote. -/
def posPartUpd : ManagedPosition := { posPart with currentPrice := qt100.askPrice, unrealizedPL := (qt100.askPrice - posPart.entryPrice) * posPart.remainingQty, unrealizedPLPC := (qt100.askPrice - posPart.entryPrice) / posPart.entryPrice * 100, updatedAt := 0 }

/-! Helper lemmas about the embedding. -/

@[simp] lemma isPlace_placeOrder (o : Order) : (Act.placeOrder o).isPlace = true := rfl

@[simp] lemma isPlace_cancelOrder (s : String) : (Act.cancelOrder s).isPlace = false := rfl

@[simp] lemma isPlace_saveToDB (p : ManagedPosition) : (Act.saveToDB p).isPlace = false := rfl

@[simp] lemma isCancel_placeOrder (o : Order) : (Act.placeOrder o).isCancel = false := rfl

@[simp] lemma isCancel_cancelOrder (s : String) : (Act.cancelOrder s).isCancel = true := rfl

@[simp] lemma isCancel_saveToDB (p : ManagedPosition) : (Act.saveToDB p).isCancel = false := rfl

@[simp] lemma isSave_placeOrder (o : Order) : (Act.placeOrder o).isSave = false := rfl

@[simp] lemma isSave_cancelOrder (s : String) : (Act.cancelOrder s).isSave = false := rfl

@[simp] lemma isSave_saveToDB (p : ManagedPosition) : (Act.saveToDB p).isSave = true := rfl

lemma placeStopLossOrder_cases (env : Env) (p : ManagedPosition) :
    (∃ e o, placeStopLossOrder env p = (Except.error e, [Act.placeOrder o]))
    ∨ (∃ r o, placeStopLossOrder env p
          = (Except.ok { p with stopLossOrderID := r }, [Act.placeOrder o])) := by
  unfold placeStopLossOrder
  dsimp only
  split
  · left; exact ⟨_, _, rfl⟩
  · right; exact ⟨_, _, rfl⟩

lemma runPlaceStopLoss_spec (env : Env) (p : ManagedPosition) :
    ∃ oid o, runPlaceStopLoss env p
      = ({ p with stopLossOrderID := oid }, [Act.placeOrder o]) := by
  unfold runPlaceStopLoss
  rcases placeStopLossOrder_cases env p with ⟨e, o, h⟩ | ⟨r, o, h⟩ <;> rw [h]
  · exact ⟨p.stopLossOrderID, o, rfl⟩
  · exact ⟨r, o, rfl⟩

lemma placeTakeProfitOrder_cases (env : Env) (p : ManagedPosition) :
    (∃ e o, placeTakeProfitOrder env p = (Except.error e, [Act.placeOrder o]))
    ∨ (∃ r o, placeTakeProfitOrder env p
          = (Except.ok { p with takeProfitOrderID := r }, [Act.placeOrder o])) := by
  unfold placeTakeProfitOrder
  dsimp only
  split
  · left; exact ⟨_, _, rfl⟩
  · right; exact ⟨_, _, rfl⟩

lemma runPlaceTakeProfit_spec (env : Env) (p : ManagedPosition) :
    ∃ oid o, runPlaceTakeProfit env p
      = ({ p with takeProfitOrderID := oid }, [Act.placeOrder o]) := by
  unfold runPlaceTakeProfit
  rcases placeTakeProfitOrder_cases env p with ⟨e, o, h⟩ | ⟨r, o, h⟩ <;> rw [h]
  · exact ⟨p.takeProfitOrderID, o, rfl⟩
  · exact ⟨r, o, rfl⟩

lemma placePartExitOrder_cases (env : Env) (p : ManagedPosition)
    (cfg : PartExitConfig) (hp : p.partExit = some cfg) :
    (∃ e o, placePartExitOrder env p = (Except.error e, [Act.placeOrder o]))
    ∨ (∃ r o, placePartExitOrder env p
          = (Except.ok { p with partExitOrders := p.partExitOrders ++ [r] },
             [Act.placeOrder o])) := by
  unfold placePartExitOrder
  rw [hp]
  dsimp only
  split
  · left; exact ⟨_, _, rfl⟩
  · right; exact ⟨_, _, rfl⟩

lemma runPlacePartExit_spec (env : Env) (p : ManagedPosition)
    (cfg : PartExitConfig) (hp : p.partExit = some cfg) :
    ∃ po o, runPlacePartExit env p
      = ({ p with partExitOrders := po }, [Act.placeOrder o]) := by
  unfold runPlacePartExit
  rcases placePartExitOrder_cases env p cfg hp with ⟨e, o, h⟩ | ⟨r, o, h⟩ <;> rw [h]
  · exact ⟨p.partExitOrders, o, rfl⟩
  · exact ⟨p.partExitOrders ++ [r], o, rfl⟩

lemma placeRiskOrders_spec (env : Env) (p : ManagedPosition) :
    ∃ sid tid po tr, placeRiskOrders env p
        = ({ p with stopLossOrderID := sid, takeProfitOrderID := tid, partExitOrders := po }, tr)
      ∧ tr.any Act.isPlace = true ∧ tr.any Act.isCancel = false
      ∧ tr.any Act.isSave = false := by
  obtain ⟨sid, o1, h1⟩ := runPlaceStopLoss_spec env p
  unfold placeRiskOrders
  rw [h1]
  dsimp only
  obtain ⟨tid, o2, h2⟩ := runPlaceTakeProfit_spec env { p with stopLossOrderID := sid }
  rw [h2]
  dsimp only
  rcases hpe : p.partExit with _ | cfg
  · exact ⟨sid, tid, p.partExitOrders, _, rfl, by simp, by simp, by simp⟩
  · dsimp only
    by_cases hen : cfg.enabled = true
    · obtain ⟨po, o3, h3⟩ := runPlacePartExit_spec env { p with stopLossOrderID := sid, takeProfitOrderID := tid, partExit := some cfg } cfg rfl
      rw [if_pos hen, h3]
      exact ⟨sid, tid, po, _, rfl, by simp, by simp, by simp⟩
    · rw [if_neg hen]
      exact ⟨sid, tid, p.partExitOrders, _, rfl, by simp, by simp, by simp⟩

lemma updateTrailingStop_spec (env : Env) (p : ManagedPosition) :
    ∃ sp oid tr, updateTrailingStop env p
      = ({ p with stopLossPrice := sp, stopLossOrderID := oid }, tr) := by
  unfold updateTrailingStop
  dsimp only
  by_cases hside : p.side = "buy"
  · rw [if_pos hside]
    by_cases hgt : p.currentPrice * (1 - p.trailingPercent / 100) > p.stopLossPrice
    · rw [if_pos hgt]
      obtain ⟨oid, o, h⟩ := runPlaceStopLoss_spec env { p with stopLossPrice := p.currentPrice * (1 - p.trailingPercent / 100) }
      rw [h]
      exact ⟨_, oid, _, rfl⟩
    · rw [if_neg hgt]
      exact ⟨p.stopLossPrice, p.stopLossOrderID, [], rfl⟩
  · rw [if_neg hside]
    by_cases hlt : p.currentPrice * (1 + p.trailingPercent / 100) < p.stopLossPrice
    · rw [if_pos hlt]
      obtain ⟨oid, o, h⟩ := runPlaceStopLoss_spec env { p with stopLossPrice := p.currentPrice * (1 + p.trailingPercent / 100) }
      rw [h]
      exact ⟨_, oid, _, rfl⟩
    · rw [if_neg hlt]
      exact ⟨p.stopLossPrice, p.stopLossOrderID, [], rfl⟩

lemma updateTrailingStop_price (env : Env) (p : ManagedPosition) :
    (updateTrailingStop env p).1.stopLossPrice =
      if p.side = "buy" then
        max p.stopLossPrice (p.currentPrice * (1 - p.trailingPercent / 100))
      else
        min p.stopLossPrice (p.currentPrice * (1 + p.trailingPercent / 100)) := by
  unfold updateTrailingStop
  dsimp only
  by_cases hside : p.side = "buy"
  · rw [if_pos hside, if_pos hside]
    by_cases hgt : p.currentPrice * (1 - p.trailingPercent / 100) > p.stopLossPrice
    · rw [if_pos hgt]
      obtain ⟨oid, o, h⟩ := runPlaceStopLoss_spec env { p with stopLossPrice := p.currentPrice * (1 - p.trailingPercent / 100) }
      rw [h]
      exact (max_eq_right hgt.le).symm
    · rw [if_neg hgt]
      exact (max_eq_left (le_of_not_lt hgt)).symm
  · rw [if_neg hside, if_neg hside]
    by_cases hlt : p.currentPrice * (1 + p.trailingPercent / 100) < p.stopLossPrice
    · rw [if_pos hlt]
      obtain ⟨oid, o, h⟩ := runPlaceStopLoss_spec env { p with stopLossPrice := p.currentPrice * (1 + p.trailingPercent / 100) }
      rw [h]
      exact (min_eq_right hlt.le).symm
    · rw [if_neg hlt]
      exact (min_eq_left (le_of_not_lt hlt)).symm

lemma updateTrailingStop_trace (env : Env) (p : ManagedPosition) :
    ((updateTrailingStop env p).2 = []) ↔
      ¬(if p.side = "buy" then
          p.currentPrice * (1 - p.trailingPercent / 100) > p.stopLossPrice
        else
          p.currentPrice * (1 + p.trailingPercent / 100) < p.stopLossPrice) := by
  unfold updateTrailingStop
  dsimp only
  by_cases hside : p.side = "buy"
  · rw [if_pos hside, if_pos hside]
    by_cases hgt : p.currentPrice * (1 - p.trailingPercent / 100) > p.stopLossPrice
    · rw [if_pos hgt]
      obtain ⟨oid, o, h⟩ := runPlaceStopLoss_spec env { p with stopLossPrice := p.currentPrice * (1 - p.trailingPercent / 100) }
      rw [h]
      simp [hgt]
    · rw [if_neg hgt]
      simp [hgt]
  · rw [if_neg hside, if_neg hside]
    by_cases hlt : p.currentPrice * (1 + p.trailingPercent / 100) < p.stopLossPrice
    · rw [if_pos hlt]
      obtain ⟨oid, o, h⟩ := runPlaceStopLoss_spec env { p with stopLossPrice := p.currentPrice * (1 + p.trailingPercent / 100) }
      rw [h]
      simp [hlt]
    · rw [if_neg hlt]
      simp [hlt]

lemma updateTrailingStop_preserve (env : Env) (p : ManagedPosition) :
    (updateTrailingStop env p).1.status = p.status
    ∧ (updateTrailingStop env p).1.side = p.side
    ∧ (updateTrailingStop env p).1.trailingPercent = p.trailingPercent
    ∧ (updateTrailingStop env p).1.trailingStop = p.trailingStop := by
  obtain ⟨sp, oid, tr, h⟩ := updateTrailingStop_spec env p
  rw [h]
  exact ⟨rfl, rfl, rfl, rfl⟩

lemma trailRun_cons (env : Env) (p : ManagedPosition) (m : ℚ) (ms : List ℚ) :
    trailRun env p (m :: ms)
      = trailRun env ((updateTrailingStop env { p with currentPrice := m }).1) ms := rfl

lemma trailRun_buy (env : Env) (marks : List ℚ) :
    ∀ p : ManagedPosition, p.side = "buy" →
      p.stopLossPrice ≤ (trailRun env p marks).stopLossPrice := by
  induction marks with
  | nil => intro p h; exact le_refl _
  | cons m ms ih =>
    intro p h
    rw [trailRun_cons]
    have hpm : ({ p with currentPrice := m } : ManagedPosition).side = "buy" := h
    have hside : ((updateTrailingStop env { p with currentPrice := m }).1).side = "buy" := by
      rw [(updateTrailingStop_preserve env _).2.1]; exact hpm
    have hle : p.stopLossPrice
        ≤ ((updateTrailingStop env { p with currentPrice := m }).1).stopLossPrice := by
      rw [updateTrailingStop_price env { p with currentPrice := m }, if_pos hpm]
      exact le_max_left _ _
    exact hle.trans (ih _ hside)

lemma trailRun_sell (env : Env) (marks : List ℚ) :
    ∀ p : ManagedPosition, p.side ≠ "buy" →
      (trailRun env p marks).stopLossPrice ≤ p.stopLossPrice := by
  induction marks with
  | nil => intro p h; exact le_refl _
  | cons m ms ih =>
    intro p h
    rw [trailRun_cons]
    have hpm : ({ p with currentPrice := m } : ManagedPosition).side ≠ "buy" := h
    have hside : ((updateTrailingStop env { p with currentPrice := m }).1).side ≠ "buy" := by
      rw [(updateTrailingStop_preserve env _).2.1]; exact hpm
    have hle : ((updateTrailingStop env { p with currentPrice := m }).1).stopLossPrice
        ≤ p.stopLossPrice := by
      rw [updateTrailingStop_price env { p with currentPrice := m }, if_neg hpm]
      exact min_le_left _ _
    exact (ih _ hside).trans hle

/-- C7: `updateTrailingStop` computes the candidate stop as
mark·(1 − pct/100) for long ("buy") positions and mark·(1 + pct/100) for
short positions, and adopts it exactly when it is strictly better than the
current stop: the resulting stop price is the max (long) resp. min (short)
of the current stop and the candidate, and broker calls are issued iff the
candidate is strictly better.  Consequently, over any sequence of marks,
the stop price is non-decreasing for long positions and non-increasing for
short positions. -/
theorem C7_trailing_stop_ratchet (env : Env) (p : ManagedPosition) :
    ((updateTrailingStop env p).1.stopLossPrice =
      if p.side = "buy" then
        max p.stopLossPrice (p.currentPrice * (1 - p.trailingPercent / 100))
      else
        min p.stopLossPrice (p.currentPrice * (1 + p.trailingPercent / 100)))
    ∧ (((updateTrailingStop env p).2 = []) ↔
        ¬(if p.side = "buy" then
            p.currentPrice * (1 - p.trailingPercent / 100) > p.stopLossPrice
          else
            p.currentPrice * (1 + p.trailingPercent / 100) < p.stopLossPrice))
    ∧ (p.side = "buy" → ∀ marks : List ℚ,
        p.stopLossPrice ≤ (trailRun env p marks).stopLossPrice)
    ∧ (p.side = "sell" → ∀ marks : List ℚ,
        (trailRun env p marks).stopLossPrice ≤ p.stopLossPrice) := by
  refine ⟨updateTrailingStop_price env p, updateTrailingStop_trace env p, ?_, ?_⟩
  · intro h marks
    exact trailRun_buy env marks p h
  · intro h marks
    refine trailRun_sell env marks p ?_
    rw [h]
    decide

/-- C7 witness: the spec scenario S3 trajectory, a long position with a 5%
trail starting from stop 95; the ratchet never lowers the stop. -/
theorem C7_trailing_stop_ratchet_witness :
    posTrail.side = "buy"
    ∧ posTrail.stopLossPrice
        ≤ (trailRun envOk posTrail [102, 110, 108, 105, 111]).stopLossPrice :=
  ⟨rfl, (C7_trailing_stop_ratchet envOk posTrail).2.2.1 rfl [102, 110, 108, 105, 111]⟩

lemma updatePositionPrice_ok_shape (env : Env) (now : ℚ) (p : ManagedPosition)
    (qt : Quote) (hq : env.getLatestQuote p.symbol = Except.ok qt) :
    ∃ c pl plpc, updatePositionPrice env now p
      = Except.ok { p with currentPrice := c, unrealizedPL := pl, unrealizedPLPC := plpc, updatedAt := now } := by
  unfold updatePositionPrice getCurrentPrice
  rw [hq]
  dsimp only
  by_cases hask : qt.askPrice > 0
  · rw [if_pos hask]
    dsimp only
    by_cases hside : p.side = "buy"
    · rw [if_pos hside]; exact ⟨_, _, _, rfl⟩
    · rw [if_neg hside]; exact ⟨_, _, _, rfl⟩
  · rw [if_neg hask]
    dsimp only
    by_cases hside : p.side = "buy"
    · rw [if_pos hside]; exact ⟨_, _, _, rfl⟩
    · rw [if_neg hside]; exact ⟨_, _, _, rfl⟩

lemma updatePositionPrice_ok_fields (env : Env) (now : ℚ) (p q : ManagedPosition)
    (h : updatePositionPrice env now p = Except.ok q) :
    q.status = p.status ∧ q.side = p.side ∧ q.stopLossOrderID = p.stopLossOrderID
    ∧ q.takeProfitOrderID = p.takeProfitOrderID ∧ q.partExitOrders = p.partExitOrders
    ∧ q.remainingQty = p.remainingQty ∧ q.trailingStop = p.trailingStop
    ∧ q.entryPrice = p.entryPrice ∧ q.stopLossPrice = p.stopLossPrice
    ∧ q.takeProfitPrice = p.takeProfitPrice := by
  unfold updatePositionPrice at h
  split at h
  · simp at h
  · split at h <;> (injection h with h2; subst h2; exact ⟨rfl, rfl, rfl, rfl, rfl, rfl, rfl, rfl, rfl, rfl⟩)

/-- C3 amended: supervisor passes preserve the terminal statuses "CLOSED",
"STOPPED_OUT" and "FAILED", but the manual close operation sets the status
of any position it is given to "CLOSED" unconditionally, so a StoppedOut
or Failed position manually closed changes status to Closed. -/
theorem C3_terminal_statuses :
    (∀ (env : Env) (now : ℚ) (p : ManagedPosition),
        (p.status = "CLOSED" ∨ p.status = "STOPPED_OUT" ∨ p.status = "FAILED") →
        (checkPositionPass env now p).map (fun r => r.1.status) = some p.status)
    ∧ (∀ (now : ℚ) (p : ManagedPosition),
        (CloseManagedPosition now p).1.status = "CLOSED") := by
  constructor
  · intro env now p h
    rcases h with h | h | h
    · unfold checkPositionPass
      rw [if_pos (Or.inl h)]
      rfl
    · unfold checkPositionPass
      rw [if_pos (Or.inr h)]
      rfl
    · unfold checkPositionPass
      have h1 : ¬(p.status = "CLOSED" ∨ p.status = "STOPPED_OUT") := by rw [h]; decide
      have h2 : ¬(p.status = "PENDING") := by rw [h]; decide
      rw [if_neg h1, if_neg h2]
      rcases hup : updatePositionPrice env now p with e | q
      · rfl
      · have hf := updatePositionPrice_ok_fields env now p q hup
        have hs : q.status = "FAILED" := by rw [hf.1, h]
        dsimp only
        rw [if_neg (show ¬(q.status = "ACTIVE") by rw [hs]; decide)]
        dsimp only
        by_cases ht : q.trailingStop = true
        · rw [if_pos ht]
          simp only [Option.map_some']
          rw [(updateTrailingStop_preserve env q).1, hf.1]
        · rw [if_neg ht]
          simp only [Option.map_some']
          rw [hf.1]
  · intro now p
    rfl

/-- C3 counterexample: manually closing a position whose status is the
terminal "STOPPED_OUT" changes its status to "CLOSED", so terminal
statuses are not preserved by every subsequent operation. -/
theorem C3_counterexample :
    posStopped.status = "STOPPED_OUT"
    ∧ (CloseManagedPosition 0 posStopped).1.status = "CLOSED" :=
  ⟨rfl, rfl⟩

/-- C3 witness: a supervisor pass on a stopped-out position leaves the
status "STOPPED_OUT". -/
theorem C3_terminal_statuses_witness :
    (checkPositionPass envOk 0 posStopped).map (fun r => r.1.status)
      = some ("STOPPED_OUT") :=
  C3_terminal_statuses.1 envOk 0 posStopped (Or.inr (Or.inl rfl))

/-- C4 amended: when the broker reports the stop order filled — in
particular when the take-profit order is also reported filled in the same
pass — the stop is polled first and wins: the position becomes
"STOPPED_OUT" with `closedAt` set and is persisted, the engine submits no
further exit order, but it also attempts no cancellation of the sibling
take-profit order. -/
theorem C4_simultaneous_fill_stop_wins (env : Env) (now : ℚ) (p : ManagedPosition)
    (hsid : p.stopLossOrderID ≠ "")
    (hstop : orderFilled env p.stopLossOrderID = true)
    (htake : orderFilled env p.takeProfitOrderID = true) :
    (manageRiskOrders env now p).1.status = "STOPPED_OUT"
    ∧ (manageRiskOrders env now p).1.closedAt = some now
    ∧ (manageRiskOrders env now p).2.any Act.isPlace = false
    ∧ (manageRiskOrders env now p).2.any Act.isCancel = false
    ∧ (manageRiskOrders env now p).2.any Act.isSave = true := by
  unfold manageRiskOrders
  rw [if_pos ⟨hsid, hstop⟩]
  exact ⟨rfl, rfl, by simp, by simp, by simp⟩

/-- C4 counterexample: with both the stop order "s1" and the take-profit
order "t1" reported filled, the pass ends "STOPPED_OUT" yet the trace
contains no cancellation, refuting that the engine attempts to cancel the
sibling take-profit order. -/
theorem C4_counterexample :
    (manageRiskOrders envFill90 7 posProt).1.status = "STOPPED_OUT"
    ∧ (manageRiskOrders envFill90 7 posProt).2.any Act.isCancel = false := by
  constructor
  · rfl
  · rfl

/-- C4 witness: the amended statement instantiated at the stub broker that
reports both protective orders filled. -/
theorem C4_simultaneous_fill_stop_wins_witness :
    (manageRiskOrders envFill90 8 posProt).1.closedAt = some 8
    ∧ (manageRiskOrders envFill90 8 posProt).2.any Act.isSave = true :=
  ⟨(C4_simultaneous_fill_stop_wins envFill90 8 posProt (by decide) rfl rfl).2.1,
   (C4_simultaneous_fill_stop_wins envFill90 8 posProt (by decide) rfl rfl).2.2.2.2⟩

lemma manageRiskOrders_partFill (env : Env) (now : ℚ) (p : ManagedPosition)
    (pid : String) (ord : Order)
    (hstop : orderFilled env p.stopLossOrderID = false)
    (htake : orderFilled env p.takeProfitOrderID = false)
    (hpe : p.partExitOrders = [pid])
    (hord : env.getOrder pid = Except.ok ord)
    (hfill : ord.status = "filled") :
    manageRiskOrders env now p
      = ({ p with status := "PARTIAL", remainingQty := p.remainingQty - ord.filledQty },
         [Act.saveToDB { p with status := "PARTIAL", remainingQty := p.remainingQty - ord.filledQty }]) := by
  have h1 : ¬(p.stopLossOrderID ≠ "" ∧ orderFilled env p.stopLossOrderID = true) := by
    intro hc
    rw [hstop] at hc
    simp at hc
  have h2 : ¬(p.takeProfitOrderID ≠ "" ∧ orderFilled env p.takeProfitOrderID = true) := by
    intro hc
    rw [htake] at hc
    simp at hc
  unfold manageRiskOrders
  rw [if_neg h1, if_neg h2, hpe]
  dsimp only [List.foldl]
  unfold checkPartExitOrder
  rw [hord]
  dsimp only
  rw [if_pos hfill]
  simp [hpe]

/-- C2 amended: when the supervisor's risk-order check observes a
partial-exit order filled on a position whose stop and take-profit orders
are not reported filled, it subtracts the order's filled quantity from the
remaining quantity, sets the status to "PARTIAL" and persists — but it
cancels nothing and submits nothing there: the stop and take-profit order
ids are unchanged, so the live protective orders are not replaced to match
the new remaining quantity by this handling. -/
theorem C2_part_fill_no_replace (env : Env) (now : ℚ) (p : ManagedPosition)
    (pid : String) (ord : Order)
    (hstop : orderFilled env p.stopLossOrderID = false)
    (htake : orderFilled env p.takeProfitOrderID = false)
    (hpe : p.partExitOrders = [pid])
    (hord : env.getOrder pid = Except.ok ord)
    (hfill : ord.status = "filled") :
    (manageRiskOrders env now p).1.status = "PARTIAL"
    ∧ (manageRiskOrders env now p).1.remainingQty = p.remainingQty - ord.filledQty
    ∧ (manageRiskOrders env now p).1.stopLossOrderID = p.stopLossOrderID
    ∧ (manageRiskOrders env now p).1.takeProfitOrderID = p.takeProfitOrderID
    ∧ (manageRiskOrders env now p).2.any Act.isCancel = false
    ∧ (manageRiskOrders env now p).2.any Act.isPlace = false
    ∧ (manageRiskOrders env now p).2.any Act.isSave = true := by
  rw [manageRiskOrders_partFill env now p pid ord hstop htake hpe hord hfill]
  exact ⟨rfl, rfl, rfl, rfl, by simp, by simp, by simp⟩

/-- C2 counterexample: with partial-exit order "pe1" filled for 5 of 10
shares, the pass sets "PARTIAL" and remaining quantity 5, but the trace
contains no cancellation and no submission — the stop and take-profit
orders sized at 10 are neither cancelled nor replaced. -/
theorem C2_counterexample :
    (checkPositionPass envPart 0 posPart).map
        (fun r => (r.1.status, r.1.remainingQty, r.2.any Act.isCancel, r.2.any Act.isPlace))
      = some ("PARTIAL", 5, false, false) := by
  have h := manageRiskOrders_partFill envPart 0 posPartUpd ("pe1") ordPE1 rfl rfl rfl rfl rfl
  unfold checkPositionPass
  rw [if_neg (by decide), if_neg (by decide)]
  rw [show updatePositionPrice envPart 0 posPart = Except.ok posPartUpd from rfl]
  dsimp only
  rw [if_pos (show posPartUpd.status = "ACTIVE" from rfl)]
  rw [h]
  dsimp only
  rw [if_neg (show ¬(({ posPartUpd with status := "PARTIAL", remainingQty := posPartUpd.remainingQty - ordPE1.filledQty } : ManagedPosition).trailingStop = true) by decide)]
  simp only [Option.map_some', List.append_nil, List.any_cons, List.any_nil]
  show some ("PARTIAL", (10 : ℚ) - 5, false, false) = _
  norm_num

/-- C2 witness: the amended statement instantiated at the stub broker
`envPart` (only "pe1" filled, for 5 shares) and position `posPart`. -/
theorem C2_part_fill_no_replace_witness :
    (manageRiskOrders envPart 3 posPart).1.status = "PARTIAL"
    ∧ (manageRiskOrders envPart 3 posPart).1.remainingQty = 5
    ∧ (manageRiskOrders envPart 3 posPart).1.stopLossOrderID = "s1"
    ∧ (manageRiskOrders envPart 3 posPart).2.any Act.isCancel = false
    ∧ (manageRiskOrders envPart 3 posPart).2.any Act.isPlace = false := by
  have h := C2_part_fill_no_replace envPart 3 posPart ("pe1") ordPE1 rfl rfl rfl rfl rfl
  exact ⟨h.1, h.2.1.trans (by show (10 : ℚ) - 5 = 5; norm_num), h.2.2.1,
         h.2.2.2.2.1, h.2.2.2.2.2.1⟩

/-- C5 amended: when the broker reports a Pending position's entry order
filled with average price `fillp`, the supervisor sets `entryPrice` to
`fillp`, transitions the status to "ACTIVE", immediately places the
protective orders and persists — but it does not recompute the protective
prices from the actual fill: the stop and take-profit prices remain those
computed from the planned entry price. -/
theorem C5_entry_fill_no_recompute (env : Env) (now : ℚ) (p : ManagedPosition)
    (ord : Order) (fillp : ℚ)
    (hord : env.getOrder p.entryOrderID = Except.ok ord)
    (hst : ord.status = "filled")
    (havg : ord.filledAvgPrice = some fillp) :
    (checkEntryOrder env now p).map
        (fun r => (r.1.status, r.1.entryPrice, r.1.stopLossPrice, r.1.takeProfitPrice,
                   r.2.any Act.isPlace, r.2.any Act.isSave))
      = some ("ACTIVE", fillp, p.stopLossPrice, p.takeProfitPrice, true, true) := by
  unfold checkEntryOrder
  rw [hord]
  dsimp only
  rw [if_pos hst, havg]
  dsimp only
  obtain ⟨sid, tid, po, tr, hpr, hplace, hcanc, hsave⟩ :=
    placeRiskOrders_spec env { p with status := "ACTIVE", entryPrice := fillp, updatedAt := now }
  rw [hpr]
  dsimp only
  simp [List.any_append, hplace]

/-- C5 counterexample: a Pending long planned at entry 100 with a 5% stop
(95) and 10% take (110) filled at 90 keeps stop 95 and take 110, and 95 is
not the recomputed value 90·(1 − 5/100). -/
theorem C5_counterexample :
    (checkEntryOrder envFill90 0 posPlan).map
        (fun r => (r.1.entryPrice, r.1.stopLossPrice, r.1.takeProfitPrice))
      = some (90, 95, 110)
    ∧ ((95 : ℚ) ≠ 90 * (1 - 5 / 100)) := by
  constructor
  · rfl
  · norm_num

/-- C5 witness: the amended statement instantiated at the stub broker that
fills the entry at 90. -/
theorem C5_entry_fill_no_recompute_witness :
    (checkEntryOrder envFill90 2 posPlan).map
        (fun r => (r.1.status, r.1.entryPrice, r.1.stopLossPrice, r.1.takeProfitPrice,
                   r.2.any Act.isPlace, r.2.any Act.isSave))
      = some ("ACTIVE", 90, 95, 110, true, true) :=
  C5_entry_fill_no_recompute envFill90 2 posPlan ordFilled90 90 rfl rfl rfl

/-- C6 amended: when the broker reports a Pending position's entry order
as canceled or rejected, the supervisor does nothing: the record stays
"PENDING" unchanged, with no transition to "FAILED" and no persistence. -/
theorem C6_cancel_reject_no_transition (env : Env) (now : ℚ)
    (p : ManagedPosition) (ord : Order)
    (hord : env.getOrder p.entryOrderID = Except.ok ord)
    (hst : ord.status = "canceled" ∨ ord.status = "rejected") :
    checkEntryOrder env now p = some (p, []) := by
  unfold checkEntryOrder
  rw [hord]
  dsimp only
  rw [if_neg (show ¬(ord.status = "filled") by rcases hst with h | h <;> rw [h] <;> decide)]

/-- C6 counterexample: a Pending position whose entry order the broker
reports canceled stays "PENDING" with an empty effect trace — it is not
marked "FAILED" and nothing is persisted. -/
theorem C6_counterexample :
    posPend.status = "PENDING"
    ∧ checkEntryOrder envCanceled 0 posPend = some (posPend, []) :=
  ⟨rfl, rfl⟩

/-- C6 witness: the amended statement at the stub broker reporting the
entry order rejected. -/
theorem C6_cancel_reject_no_transition_witness :
    checkEntryOrder envRejected 0 posPend = some (posPend, []) :=
  C6_cancel_reject_no_transition envRejected 0 posPend
    { ordAccepted with status := "rejected" } rfl (Or.inr rfl)

/-- C10: the Pending-entry handler is safe only when a filled report
carries a fill-average price: with `filledAvgPrice = none` the handler
dereferences a nil pointer (modelled as the `none` result), and with
`filledAvgPrice = some fillp` it succeeds, setting the entry price to
`fillp` and the status to "ACTIVE". -/
theorem C10_fill_requires_avg_price (env : Env) (now : ℚ)
    (p : ManagedPosition) (ord : Order)
    (hord : env.getOrder p.entryOrderID = Except.ok ord)
    (hst : ord.status = "filled") :
    (ord.filledAvgPrice = none → checkEntryOrder env now p = none)
    ∧ (∀ fillp : ℚ, ord.filledAvgPrice = some fillp →
        (checkEntryOrder env now p).map (fun r => (r.1.status, r.1.entryPrice))
          = some ("ACTIVE", fillp)) := by
  constructor
  · intro hnone
    unfold checkEntryOrder
    rw [hord]
    dsimp only
    rw [if_pos hst, hnone]
  · intro fillp havg
    unfold checkEntryOrder
    rw [hord]
    dsimp only
    rw [if_pos hst, havg]
    dsimp only
    obtain ⟨sid, tid, po, tr, hpr, hplace, hcanc, hsave⟩ :=
      placeRiskOrders_spec env { p with status := "ACTIVE", entryPrice := fillp, updatedAt := now }
    rw [hpr]
    rfl

/-- C10 witness: at the stub broker reporting a fill with a nil
fill-average price, the handler hits the nil dereference. -/
theorem C10_fill_requires_avg_price_witness :
    checkEntryOrder envNilAvg 0 posPend = none :=
  (C10_fill_requires_avg_price envNilAvg 0 posPend
      { ordAccepted with status := "filled", filledQty := 10 } rfl rfl).1 rfl

lemma validateRequest_ok (req : PlaceManagedPositionRequest)
    (h : validateRequest req = Except.ok ()) :
    ¬(req.stopLossPrice = none ∧ req.stopLossPercent = none)
    ∧ ¬(req.takeProfitPrice = none ∧ req.takeProfitPercent = none) := by
  unfold validateRequest at h
  split at h
  · simp at h
  · split at h
    · simp at h
    · split at h
      · simp at h
      · split at h
        · simp at h
        · exact ⟨by assumption, by assumption⟩

lemma calculateStopLoss_ne_none (e : ℚ) (sp spct : Option ℚ) (side : String)
    (h : ¬(sp = none ∧ spct = none)) :
    calculateStopLoss e sp spct side ≠ none := by
  unfold calculateStopLoss
  rcases sp with _ | pr
  · rcases spct with _ | pct
    · exact absurd ⟨rfl, rfl⟩ h
    · dsimp only
      split <;> simp
  · simp

lemma calculateTakeProfit_ne_none (e : ℚ) (pp ppct : Option ℚ) (side : String)
    (h : ¬(pp = none ∧ ppct = none)) :
    calculateTakeProfit e pp ppct side ≠ none := by
  unfold calculateTakeProfit
  rcases pp with _ | pr
  · rcases ppct with _ | pct
    · exact absurd ⟨rfl, rfl⟩ h
    · dsimp only
      split <;> simp
  · simp

lemma placeEntryOrder_error (env : Env) (p : ManagedPosition) (e : String)
    (tr : List Act) (h : placeEntryOrder env p = (Except.error e, tr)) :
    (∃ o, tr = [Act.placeOrder o]) ∧ (∃ e2 o2, env.placeOrder o2 = Except.error e2) := by
  unfold placeEntryOrder at h
  dsimp only at h
  split at h
  · injection h with h1 h2
    exact ⟨⟨_, h2.symm⟩, _, _, by assumption⟩
  · injection h with h1 h2
    simp at h1

lemma placeEntryOrder_ok (env : Env) (p q : ManagedPosition) (tr : List Act)
    (h : placeEntryOrder env p = (Except.ok q, tr)) :
    (∃ o, tr = [Act.placeOrder o]) ∧ q.quantity = p.quantity
    ∧ q.remainingQty = p.remainingQty ∧ q.status = "PENDING" := by
  unfold placeEntryOrder at h
  dsimp only at h
  split at h
  · injection h with h1 h2
    simp at h1
  · injection h with h1 h2
    injection h1 with h3
    subst h3
    subst h2
    exact ⟨⟨_, rfl⟩, rfl, rfl, rfl⟩

lemma PlaceManagedPosition_shape (env : Env) (posId : String) (now : ℚ)
    (req : PlaceManagedPositionRequest) (qt : Quote)
    (hv : validateRequest req = Except.ok ())
    (hq : env.getLatestQuote req.symbol = Except.ok qt) :
    (∃ e o, PlaceManagedPosition env posId now req = (Except.error e, [Act.placeOrder o])
        ∧ ∃ e2 o2, env.placeOrder o2 = Except.error e2)
    ∨ (∃ q o, PlaceManagedPosition env posId now req
          = (Except.ok q, [Act.placeOrder o, Act.saveToDB q])
        ∧ q.quantity = calculateQuantity req.allocationDollars
            (match req.entryPrice with
             | some pe => pe
             | none => if qt.askPrice > 0 then qt.askPrice else qt.bidPrice)
        ∧ q.remainingQty = q.quantity ∧ q.status = "PENDING") := by
  obtain ⟨hsl, htp⟩ := validateRequest_ok req hv
  unfold PlaceManagedPosition getCurrentPrice
  rw [hv, hq]
  dsimp only
  by_cases hask : qt.askPrice > 0
  · rw [if_pos hask, if_pos hask]
    dsimp only
    split
    · next heq => exact absurd heq (calculateStopLoss_ne_none _ _ _ _ hsl)
    · next sl heq =>
      split
      · next heq2 => exact absurd heq2 (calculateTakeProfit_ne_none _ _ _ _ htp)
      · next tp heq2 =>
        split
        · next e tr heq3 =>
          obtain ⟨⟨o, ho⟩, hbr⟩ := placeEntryOrder_error _ _ _ _ heq3
          subst ho
          exact Or.inl ⟨_, o, rfl, hbr⟩
        · next p1 tr heq3 =>
          obtain ⟨⟨o, ho⟩, hq1, hq2, hq3⟩ := placeEntryOrder_ok _ _ _ _ heq3
          subst ho
          exact Or.inr ⟨p1, o, rfl, hq1, hq2.trans hq1.symm, hq3⟩
  · rw [if_neg hask, if_neg hask]
    dsimp only
    split
    · next heq => exact absurd heq (calculateStopLoss_ne_none _ _ _ _ hsl)
    · next sl heq =>
      split
      · next heq2 => exact absurd heq2 (calculateTakeProfit_ne_none _ _ _ _ htp)
      · next tp heq2 =>
        split
        · next e tr heq3 =>
          obtain ⟨⟨o, ho⟩, hbr⟩ := placeEntryOrder_error _ _ _ _ heq3
          subst ho
          exact Or.inl ⟨_, o, rfl, hbr⟩
        · next p1 tr heq3 =>
          obtain ⟨⟨o, ho⟩, hq1, hq2, hq3⟩ := placeEntryOrder_ok _ _ _ _ heq3
          subst ho
          exact Or.inr ⟨p1, o, rfl, hq1, hq2.trans hq1.symm, hq3⟩

/-- C1 amended: for a valid open-position request the entry order is
submitted to the broker first — the first recorded effect is always the
order submission, so nothing is persisted before it; if the submission
fails, the error is returned with nothing persisted and no record marked
Failed; only after a successful submission is the record stored, with the
persistence attempt last (its failure is merely logged). -/
theorem C1_entry_submitted_before_persist (env : Env) (posId : String)
    (now : ℚ) (req : PlaceManagedPositionRequest) (qt : Quote)
    (hv : validateRequest req = Except.ok ())
    (hq : env.getLatestQuote req.symbol = Except.ok qt) :
    ((PlaceManagedPosition env posId now req).2.head?.map Act.isPlace = some true)
    ∧ (exOk (PlaceManagedPosition env posId now req).1 = false →
        (PlaceManagedPosition env posId now req).2.any Act.isSave = false)
    ∧ (exOk (PlaceManagedPosition env posId now req).1 = true →
        (PlaceManagedPosition env posId now req).2.getLast?.map Act.isSave = some true) := by
  rcases PlaceManagedPosition_shape env posId now req qt hv hq with
    ⟨e, o, h, hbr⟩ | ⟨q, o, h, hq1, hq2, hq3⟩ <;> rw [h]
  · exact ⟨rfl, fun _ => rfl, fun hc => by simp [exOk] at hc⟩
  · exact ⟨rfl, fun hc => by simp [exOk] at hc, fun _ => rfl⟩

/-- C1 counterexample: with a broker that rejects the submission, the
entry order is submitted (a placeOrder effect is recorded), nothing is
ever persisted, and the error is returned with no record marked Failed —
refuting persist-before-submit and the Failed-marking on failure. -/
theorem C1_counterexample :
    exOk (PlaceManagedPosition envErr ("pos_1") 0 reqStd).1 = false
    ∧ (PlaceManagedPosition envErr ("pos_1") 0 reqStd).2.any Act.isPlace = true
    ∧ (PlaceManagedPosition envErr ("pos_1") 0 reqStd).2.any Act.isSave = false :=
  ⟨rfl, rfl, rfl⟩

/-- C1 witness: the amended statement at a broker that accepts the
submission. -/
theorem C1_entry_submitted_before_persist_witness :
    (PlaceManagedPosition envOk ("pos_2") 1 reqStd).2.head?.map Act.isPlace = some true :=
  (C1_entry_submitted_before_persist envOk ("pos_2") 1 reqStd qt100 rfl rfl).1

/-- C8 amended: the planned quantity is floor(allocation / price) — but a
zero quantity is not rejected: the open operation succeeds, creates the
record and submits the entry order whatever the computed quantity is (no
AllocationBelowPrice failure exists), and validation does not reject a
zero price. -/
theorem C8_sizing_no_zero_guard (env : Env) (posId : String) (now : ℚ)
    (req : PlaceManagedPositionRequest) (qt : Quote) (pr : OrderResult)
    (hv : validateRequest req = Except.ok ())
    (hq : env.getLatestQuote req.symbol = Except.ok qt)
    (hask : qt.askPrice > 0)
    (hno : req.entryPrice = none)
    (hpl : ∀ o, env.placeOrder o = Except.ok pr) :
    (PlaceManagedPosition env posId now req).1.toOption.map
        (fun p => (p.quantity, p.remainingQty, p.status))
      = some (calculateQuantity req.allocationDollars qt.askPrice,
              calculateQuantity req.allocationDollars qt.askPrice, "PENDING")
    ∧ (PlaceManagedPosition env posId now req).2.any Act.isPlace = true := by
  rcases PlaceManagedPosition_shape env posId now req qt hv hq with
    ⟨e, o, h, e2, o2, hbr⟩ | ⟨q, o, h, hq1, hq2, hq3⟩
  · rw [hpl o2] at hbr
    simp at hbr
  · rw [h]
    rw [hno] at hq1
    rw [if_pos hask] at hq1
    constructor
    · dsimp only [Except.toOption, Option.map_some']
      rw [hq1, hq2, hq3, hq1]
    · simp

/-- C8 counterexample: with allocation 50 and price 100 the computed
quantity is 0, yet the open operation succeeds and submits the entry
order — there is no AllocationBelowPrice failure and no record is
withheld — and a request with an explicit entry price of zero passes
validation. -/
theorem C8_counterexample :
    (PlaceManagedPosition envOk ("pos_3") 0 reqSmall).1.toOption.map (fun p => p.quantity)
      = some 0
    ∧ (PlaceManagedPosition envOk ("pos_3") 0 reqSmall).2.any Act.isPlace = true
    ∧ validateRequest reqZeroEntry = Except.ok () := by
  refine ⟨?_, rfl, rfl⟩
  rcases PlaceManagedPosition_shape envOk ("pos_3") 0 reqSmall qt100 rfl rfl with
    ⟨e, o, h, e2, o2, hbr⟩ | ⟨q, o, h, hq1, hq2, hq3⟩
  · simp [envOk] at hbr
  · rw [h]
    dsimp only [Except.toOption, Option.map_some']
    rw [hq1]
    show some (calculateQuantity 50 (if (100 : ℚ) > 0 then (100 : ℚ) else 99)) = some 0
    rw [if_pos (by norm_num)]
    unfold calculateQuantity
    norm_num

/-- C8 witness: the amended statement at allocation 1000 and ask 100
yields quantity 10. -/
theorem C8_sizing_no_zero_guard_witness :
    (PlaceManagedPosition envOk ("pos_4") 0 reqStd).1.toOption.map
        (fun p => (p.quantity, p.remainingQty, p.status))
      = some (10, 10, "PENDING") := by
  have h := (C8_sizing_no_zero_guard envOk ("pos_4") 0 reqStd qt100 resOk
    rfl rfl (by norm_num [qt100]) rfl (fun o => rfl)).1
  refine h.trans ?_
  show some (calculateQuantity 1000 100, calculateQuantity 1000 100, "PENDING") = _
  unfold calculateQuantity
  norm_num

lemma ListManagedPositions_mem_aux (status : String) (now : ℚ) :
    ∀ (ps acc : List ManagedPosition) (x : ManagedPosition),
      x ∈ ps.foldl (fun acc pos =>
          if pos.status = "PENDING" ∧ now - pos.createdAt > staleAfter then acc
          else if status = "" ∨ pos.status = status then acc ++ [pos] else acc) acc
      ↔ x ∈ acc ∨ (x ∈ ps ∧ ¬(x.status = "PENDING" ∧ now - x.createdAt > staleAfter)
                   ∧ (status = "" ∨ x.status = status)) := by
  intro ps
  induction ps with
  | nil =>
    intro acc x
    simp
  | cons p ps ih =>
    intro acc x
    rw [List.foldl_cons, ih]
    by_cases h1 : p.status = "PENDING" ∧ now - p.createdAt > staleAfter
    · rw [if_pos h1]
      simp only [List.mem_cons]
      constructor
      · rintro (h | ⟨hx, hk⟩)
        · exact Or.inl h
        · exact Or.inr ⟨Or.inr hx, hk⟩
      · rintro (h | ⟨hx | hx, hk⟩)
        · exact Or.inl h
        · subst hx; exact absurd h1 hk.1
        · exact Or.inr ⟨hx, hk⟩
    · rw [if_neg h1]
      by_cases h2 : status = "" ∨ p.status = status
      · rw [if_pos h2]
        simp only [List.mem_cons, List.mem_append]
        constructor
        · rintro ((h | h | h) | ⟨hx, hk⟩)
          · exact Or.inl h
          · subst h; exact Or.inr ⟨Or.inl rfl, h1, h2⟩
          · exact absurd h (List.not_mem_nil x)
          · exact Or.inr ⟨Or.inr hx, hk⟩
        · rintro (h | ⟨hx | hx, hk⟩)
          · exact Or.inl (Or.inl h)
          · subst hx; exact Or.inl (Or.inr (Or.inl rfl))
          · exact Or.inr ⟨hx, hk⟩
      · rw [if_neg h2]
        simp only [List.mem_cons]
        constructor
        · rintro (h | ⟨hx, hk⟩)
          · exact Or.inl h
          · exact Or.inr ⟨Or.inr hx, hk⟩
        · rintro (h | ⟨hx | hx, hk⟩)
          · exact Or.inl h
          · subst hx; exact absurd hk.2 h2
          · exact Or.inr ⟨hx, hk⟩

/-- C9 amended: listing filters literally — a record is returned iff it is
held, it is not a Pending record older than the 24-hour window, and the
status filter is empty or equals the record's status verbatim.  Hence the
empty filter returns every record except stale Pending ones, while the
filter "all" matches only records whose status is literally "all" (none in
normal operation) and still hides stale Pending records. -/
theorem C9_list_literal_filter :
    ∀ (ps : List ManagedPosition) (status : String) (now : ℚ) (x : ManagedPosition),
      x ∈ ListManagedPositions ps status now
      ↔ x ∈ ps ∧ ¬(x.status = "PENDING" ∧ now - x.createdAt > staleAfter)
          ∧ (status = "" ∨ x.status = status) := by
  intro ps status now x
  unfold ListManagedPositions
  rw [ListManagedPositions_mem_aux]
  simp

/-- C9 counterexample: a stale Pending position listed with
status="all" is not returned, refuting that the "all" filter includes
everything. -/
theorem C9_counterexample :
    posStale.status = "PENDING"
    ∧ ListManagedPositions [posStale] "all" 100000 = [] := by
  refine ⟨rfl, ?_⟩
  have hc : posStale.status = "PENDING" ∧ (100000 : ℚ) - posStale.createdAt > staleAfter :=
    ⟨rfl, by show (100000 : ℚ) - 0 > 24 * 3600; norm_num⟩
  unfold ListManagedPositions
  rw [List.foldl_cons, if_pos hc]
  rfl
